import Mathlib

/-!
Shallow embedding of `src/splink/blocking.py` (candidate-pair generation /
blocking stage of the splink record-linkage pipeline), together with small
semantic models for the properties that concern the meaning of the generated
SQL (two-valued predicate semantics, three-valued null semantics, salt
buckets).  Definitions follow the Python source function by function; external
capabilities that the source merely consumes (the sqlglot expression parser,
the composite-unique-id renderer, the execution engine's physical naming and
the salt column generation) are modelled from the specification and marked as
such in their doc comments.
-/

namespace Splink

/-- Embeds the Python class `BlockingRule` (src/splink/blocking.py, lines
42-58).  `ids_to_compare` holds the physical names of the materialized
id-pair tables (the source stores dataframe handles; only their
`physical_name` is ever read).  `preceding_rules` is kept outside the
structure and passed explicitly where needed, because in the source it is
assigned by the settings object (outside src/) after construction. -/
structure BlockingRule where
  blocking_rule : String
  salting_partitions : Nat := 1
  sqlglot_dialect : Option String := none
  arrays_to_explode : List String := []
  ids_to_compare : List String := []
deriving DecidableEq, Repr

/-- Embeds the `sql_dialect` property (lines 60-62): the `_sql_dialect`
attribute is only set when the constructor argument is truthy, so a `None`
or empty-string argument yields `None`. -/
def BlockingRule.sql_dialect (r : BlockingRule) : Option String :=
  match r.sqlglot_dialect with
  | none => none
  | some s => if s = "" then none else some s

/-- Embeds the `match_key` property (lines 64-66): the number of preceding
rules, passed explicitly since `preceding_rules` is assigned externally. -/
def match_key (preceding_rules : List BlockingRule) : Nat :=
  preceding_rules.length

/-- The body of the `" union all "`-joined subquery of
`exclude_from_following_rules_sql` (lines 82-84). -/
def ids_to_compare_sql (ids : List String) : String :=
  String.intercalate " union all " (ids.map (fun s => "select * from " ++ s))

/-- Embeds `BlockingRule.exclude_from_following_rules_sql` (lines 77-99).
The only datum read from the linker is
`linker._settings_obj._unique_id_column_name`, passed here as
`unique_id_column`.  The Python truthiness test `if self.ids_to_compare:`
is non-emptiness of the list. -/
def exclude_from_following_rules_sql (unique_id_column : String)
    (r : BlockingRule) : String :=
  if r.ids_to_compare.isEmpty then
    "coalesce((" ++ r.blocking_rule ++ "),false)"
  else
    "EXISTS (\n                select 1 from ("
      ++ ids_to_compare_sql r.ids_to_compare
      ++ ") as ids_to_compare\n                where (\n                    l."
      ++ unique_id_column ++ " = ids_to_compare." ++ unique_id_column
      ++ "_l and \n                    r."
      ++ unique_id_column ++ " = ids_to_compare." ++ unique_id_column
      ++ "_r \n                )\n            )\n            "

/-- Embeds `BlockingRule.and_not_preceding_rules_sql` (lines 101-108), with
the externally-assigned `preceding_rules` passed explicitly. -/
def and_not_preceding_rules_sql (unique_id_column : String)
    (preceding_rules : List BlockingRule) : String :=
  if preceding_rules.isEmpty then ""
  else
    "AND NOT ("
      ++ String.intercalate " OR "
          (preceding_rules.map (exclude_from_following_rules_sql unique_id_column))
      ++ ")"

/-- The per-branch salt clause appended by `salted_blocking_rules`
(line 116), a function of the partition count and the branch index only,
never of the rule's predicate. -/
def saltClause (saltingPartitions n : Nat) : String :=
  " and ceiling(l.__splink_salt * " ++ toString saltingPartitions
    ++ ") = " ++ toString (n + 1)

/-- Embeds the `salted_blocking_rules` generator property (lines 110-116)
as the list of the yielded strings. -/
def salted_blocking_rules (r : BlockingRule) : List String :=
  if r.salting_partitions = 1 then [r.blocking_rule]
  else (List.range r.salting_partitions).map
    (fun n => r.blocking_rule ++ saltClause r.salting_partitions n)

/-- The Python exceptions raised by this module.  The spec's §7 names a
`ConfigError` for a malformed rule declaration; the source raises the
builtin `ValueError`, so both kinds are representable. -/
inductive PyError where
  | valueError (msg : String)
  | configError (msg : String)
deriving DecidableEq, Repr

/-- Whether a result is a raised `ConfigError`. -/
def raisesConfigError (x : Except PyError BlockingRule) : Bool :=
  match x with
  | .error (.configError _) => true
  | _ => false

/-- A structured rule config (a Python dict as consumed by
`blocking_rule_to_obj`, lines 25-31): only the four keys the function reads
are relevant; `none` models an absent key. -/
structure BRDict where
  blocking_rule : Option String := none
  sql_dialect : Option String := none
  salting_partitions : Option Nat := none
  arrays_to_explode : Option (List String) := none
deriving DecidableEq, Repr

/-- The three runtime types `blocking_rule_to_obj` distinguishes. -/
inductive BlockingRuleInput where
  | rule (r : BlockingRule)
  | dict (d : BRDict)
  | str (s : String)
deriving DecidableEq, Repr

/-- Embeds `blocking_rule_to_obj` (lines 22-39).  A dict without the
`"blocking_rule"` key raises `ValueError("No blocking rule submitted...")`;
otherwise the `BlockingRule` constructor is called with the dict's values,
absent keys defaulting per `dict.get`. -/
def blocking_rule_to_obj (br : BlockingRuleInput) : Except PyError BlockingRule :=
  match br with
  | .rule r => .ok r
  | .dict d =>
    match d.blocking_rule with
    | none => .error (.valueError "No blocking rule submitted...")
    | some rule =>
      .ok { blocking_rule := rule
            salting_partitions := d.salting_partitions.getD 1
            sqlglot_dialect := d.sql_dialect
            arrays_to_explode := d.arrays_to_explode.getD []
            ids_to_compare := [] }
  | .str s => .ok { blocking_rule := s }

/-- Modelled from the spec: `_composite_unique_id_from_nodes_sql`
(src/splink/unique_id_concat.py, not under src/) renders the composite
identifier — "a derived unique key combining dataset origin and in-dataset
identifier" — by concatenating the table-qualified unique-id columns with a
separator.  Input columns are represented by their rendered names. -/
def compositeUniqueIdFromNodesSql (unique_id_cols : List String)
    (tableAlias : String) : String :=
  String.intercalate (" || " ++ "\x27-__-\x27" ++ " || ")
    (unique_id_cols.map (fun c => tableAlias ++ "." ++ c))

/-- Embeds `_sql_gen_where_condition` (lines 208-223).  For a link type
outside the five handled ones the Python function raises
`UnboundLocalError`; this is `none`. -/
def sql_gen_where_condition (link_type : String)
    (unique_id_cols : List String) : Option String :=
  let id_expr_l := compositeUniqueIdFromNodesSql unique_id_cols "l"
  let id_expr_r := compositeUniqueIdFromNodesSql unique_id_cols "r"
  if link_type = "two_dataset_link_only" ∨ link_type = "self_link" then
    some " where 1=1 "
  else if link_type = "link_and_dedupe" ∨ link_type = "dedupe_only" then
    some ("where " ++ id_expr_l ++ " < " ++ id_expr_r)
  else if link_type = "link_only" then
    let source_dataset_col := unique_id_cols.headD ""
    some ("where " ++ id_expr_l ++ " < " ++ id_expr_r ++ " "
      ++ "and l." ++ source_dataset_col ++ " != r." ++ source_dataset_col)
  else none

/-! ### Model of the sqlglot expression-analysis capability (claim C4)

The source delegates predicate parsing to the external `sqlglot` library
(`parse_one`, `Join.on`, `join_condition`; spec §6 "SQL expression
analysis").  The fragment of SQL expressions the decomposition claims
exercise is modelled as a small AST, and `join_condition` is modelled after
`sqlglot.optimizer.eliminate_joins.join_condition` (version 11.4.1, as
pinned by the source's comment). -/

/-- SQL boolean/arithmetic expression fragment: qualified columns, integer
literals, `=`, `>`, `-`, `and`. -/
inductive SqlExpr where
  | col (tbl : Option String) (name : String)
  | num (n : Nat)
  | eq (a b : SqlExpr)
  | gt (a b : SqlExpr)
  | sub (a b : SqlExpr)
  | conj (a b : SqlExpr)
deriving DecidableEq, Repr

/-- Renders an expression back to SQL text (the `.sql(dialect)` calls on
lines 151-152 and 168). -/
def SqlExpr.render : SqlExpr → String
  | .col (some t) n => t ++ "." ++ n
  | .col none n => n
  | .num n => toString n
  | .eq a b => a.render ++ " = " ++ b.render
  | .gt a b => a.render ++ " > " ++ b.render
  | .sub a b => a.render ++ " - " ++ b.render
  | .conj a b => a.render ++ " and " ++ b.render

/-- The set (as a list) of table qualifiers mentioned by an expression
(sqlglot's `column_table_names`). -/
def SqlExpr.columnTables : SqlExpr → List String
  | .col (some t) _ => [t]
  | .col none _ => []
  | .num _ => []
  | .eq a b => a.columnTables ++ b.columnTables
  | .gt a b => a.columnTables ++ b.columnTables
  | .sub a b => a.columnTables ++ b.columnTables
  | .conj a b => a.columnTables ++ b.columnTables

/-- Flattens a conjunction into its conjuncts (sqlglot's `on.flatten()` for
an `And` node). -/
def SqlExpr.flattenConj : SqlExpr → List SqlExpr
  | .conj a b => a.flattenConj ++ b.flattenConj
  | e => [e]

/-- Deletes every column's table qualifier, embedding the local
`remove_table_prefix` helper of `_equi_join_conditions` (lines 135-138). -/
def SqlExpr.stripTables : SqlExpr → SqlExpr
  | .col _ n => .col none n
  | .num n => .num n
  | .eq a b => .eq a.stripTables b.stripTables
  | .gt a b => .gt a.stripTables b.stripTables
  | .sub a b => .sub a.stripTables b.stripTables
  | .conj a b => .conj a.stripTables b.stripTables

/-- One pass over the conjuncts of the join condition, pulling out the
equality conditions that relate the joined table `name` to the other side,
as `sqlglot.optimizer.eliminate_joins.join_condition` does: an `EQ` whose
left side mentions `name` and whose right side does not contributes (right,
left) to (source_keys, join_keys) and is dropped from the residue, and
symmetrically; everything else stays in the residue. -/
def extractJoinKeys (name : String) :
    List SqlExpr → List SqlExpr × List SqlExpr × List SqlExpr
  | [] => ([], [], [])
  | c :: rest =>
    let (sk, jk, rem) := extractJoinKeys name rest
    match c with
    | .eq a b =>
      if name ∈ a.columnTables ∧ name ∉ b.columnTables then
        (b :: sk, a :: jk, rem)
      else if name ∈ b.columnTables ∧ name ∉ a.columnTables then
        (a :: sk, b :: jk, rem)
      else (sk, jk, c :: rem)
    | _ => (sk, jk, c :: rem)

/-- Modelled from the spec: the external capability
`extract_equi_join(tree) -> (left_keys, right_keys,
residual_filter_tree_or_none)` (spec §6), as realized by sqlglot's
`join_condition` applied to the `INNER JOIN r` condition built on
lines 119-123: extracted equalities are replaced by `TRUE` and simplified
away, so the residual is `none` exactly when every conjunct was
extracted. -/
def joinCondition (name : String) (on_ : SqlExpr) :
    List SqlExpr × List SqlExpr × Option SqlExpr :=
  let (sk, jk, rem) := extractJoinKeys name on_.flattenConj
  (sk, jk,
    match rem with
    | [] => none
    | c :: cs => some (cs.foldl SqlExpr.conj c))

/-- Embeds `BlockingRule._equi_join_conditions` (lines 125-155) for a rule
whose predicate parses to `tree`: zip source keys with join keys, strip
table qualifiers, render. -/
def equi_join_conditions (tree : SqlExpr) : List (String × String) :=
  let (source_keys, join_keys, _) := joinCondition "r" tree
  (source_keys.zip join_keys).map
    (fun ij => (ij.1.stripTables.render, ij.2.stripTables.render))

/-- Embeds `BlockingRule._filter_conditions` (lines 157-168): the rendered
residual, or `""` when there is none. -/
def filter_conditions (tree : SqlExpr) : String :=
  match (joinCondition "r" tree).2.2 with
  | none => ""
  | some c => c.render

/-- The residual filter rendered after stripping table qualifiers — the
formalization of the claim's "residual filter equivalent to", i.e. equality
up to the alias qualifiers that decomposition is specified to be
independent of. -/
def stripped_filter_conditions (tree : SqlExpr) : String :=
  match (joinCondition "r" tree).2.2 with
  | none => ""
  | some c => c.stripTables.render

/-- Modelled from the spec: the parse tree the external SQL parser returns
for the predicate text `"l.name = r.name and l.dob = r.dob"` (spec §8,
decomposition correctness). -/
def examplePredicate1 : SqlExpr :=
  .conj (.eq (.col (some "l") "name") (.col (some "r") "name"))
        (.eq (.col (some "l") "dob") (.col (some "r") "dob"))

/-- Modelled from the spec: the parse tree the external SQL parser returns
for the predicate text `"l.name = r.name and l.age > r.age - 2"`. -/
def examplePredicate2 : SqlExpr :=
  .conj (.eq (.col (some "l") "name") (.col (some "r") "name"))
        (.gt (.col (some "l") "age") (.sub (.col (some "r") "age") (.num 2)))

/-! ### Semantic models -/

/-- Three-valued SQL boolean semantics of `coalesce((predicate),false)`
(line 99): `none` is SQL `unknown` (a predicate over null-valued fields),
and `coalesce` maps it to `false`. -/
def coalesceFalse (v : Option Bool) : Bool :=
  v.getD false

/-- Two-valued semantics of the direct-path statement generated for rule
`i` (lines 299-310): a candidate pair `p` joins iff the rule's own
predicate holds (`on (salted_br)`) and no preceding rule's predicate holds
(`AND NOT (... OR ...)` over the exclusion clauses of rules `0..i-1`,
which on the direct path are the `coalesce`-guarded raw predicates; under
the composer contract the preceding rules are `preds.take i`). -/
def branchEmits {α : Type} (preds : List (α → Bool)) (i : Nat) (p : α) : Bool :=
  (preds.getD i (fun _ => false)) p && !((preds.take i).any (fun f => f p))

/-- The index of the first rule whose predicate accepts the pair. -/
def leastMatch {α : Type} (preds : List (α → Bool)) (p : α) : Nat :=
  preds.findIdx (fun f => f p)

/-- The salt bucket of a record: `ceiling(l.__splink_salt * N)` as
generated on line 116, with the record's `__splink_salt` value `s`.
Modelled from the spec: the salt column itself is populated outside src/
(per the spec, a deterministic per-record value giving a bucket in
`[1, N]`, i.e. `s ∈ (0, 1]`). -/
def saltBucket (saltingPartitions : Nat) (s : ℚ) : ℤ :=
  ⌈s * (saltingPartitions : ℚ)⌉

/-- Two-valued semantics of the `n`-th salted variant (line 116) at a pair
whose unsalted predicate evaluates to `P` and whose left record has salt
value `s`. -/
def saltedVariantMatches (P : Bool) (saltingPartitions n : Nat) (s : ℚ) : Prop :=
  P = true ∧ saltBucket saltingPartitions s = (n : ℤ) + 1

/-- Whether a pair is selected by the union of all salted variants of a
rule (lines 110-116): for one partition the single variant is the bare
predicate, otherwise some branch `n < N` must accept the pair. -/
def saltedUnionMatches (P : Bool) (saltingPartitions : Nat) (s : ℚ) : Prop :=
  if saltingPartitions = 1 then P = true
  else ∃ n < saltingPartitions, saltedVariantMatches P saltingPartitions n s

/-! ### Plan assembler: `block_using_rules_sql` (lines 226-390)

The assembler is embedded as an explicit fold over the rules and their
salted variants, threading the state the Python function mutates: the
shared `where_condition` variable, the list of enqueued (sql, output-name)
pairs, the accumulated `sqls` list, and each rule's `ids_to_compare`.
External engine capabilities (the dialect-specific explode SQL generator,
the engine-assigned physical names of materialized outputs, and hashlib's
sha256 hexdigest) are supplied as function parameters of the run
configuration. -/

/-- The run-context data `block_using_rules_sql` reads off the linker and
its settings object, plus the three consumed external capabilities. -/
structure LinkerConfig where
  /-- `type(linker).__name__ == "SparkLinker"` (lines 236-239). -/
  linkerIsSpark : Bool
  /-- `settings_obj._columns_to_select_for_blocking` (line 243). -/
  columnsToSelect : List String
  /-- `settings_obj._link_type` (line 246). -/
  settingsLinkType : String
  /-- `linker._two_dataset_link_only` (line 248). -/
  twoDatasetLinkOnly : Bool
  /-- `linker._self_link_mode` (line 251). -/
  selfLinkMode : Bool
  /-- `settings_obj._unique_id_input_columns`, by rendered name (line 255). -/
  uniqueIdInputColumns : List String
  /-- `settings_obj._blocking_rule_for_training` (line 262). -/
  blockingRuleForTraining : Option BlockingRule
  /-- `settings_obj._blocking_rules_to_generate_predictions` (line 265). -/
  blockingRulesToGeneratePredictions : List BlockingRule
  /-- `linker._deterministic_link_mode` (line 282). -/
  deterministicLinkMode : Bool
  /-- `linker._input_tablename_l` (line 304). -/
  inputTablenameL : String
  /-- `linker._input_tablename_r` (line 305). -/
  inputTablenameR : String
  /-- `settings_obj._unique_id_column_name` (lines 78, 327). -/
  uniqueIdColumnName : String
  /-- `linker._cache_uid` (line 336). -/
  cacheUid : String
  /-- `linker._find_new_matches_mode` (line 361). -/
  findNewMatchesMode : Bool
  /-- `linker._compare_two_records_mode` (line 362). -/
  compareTwoRecordsMode : Bool
  /-- `linker._source_dataset_column_name` (line 364). -/
  sourceDatasetColumnName : String
  /-- `linker._input_tables_dict` as (key, templated_name) pairs
  (lines 367-370). -/
  inputTablesDict : List (String × String)
  /-- `linker._train_u_using_random_sample_mode` (line 372). -/
  trainURandomSampleMode : Bool
  /-- Modelled from the spec: `linker._gen_explode_sql(...)` (line 324) is
  the execution engine's dialect-specific unnest generator, a function of
  the arrays to explode here (the base table name and passthrough columns
  are fixed per run). -/
  genExplodeSql : List String → String
  /-- Modelled from the spec: the execution engine assigns each
  materialized output a `physical_name` derived from its templated output
  name (lines 348, 353). -/
  physicalName : String → String
  /-- `hashlib.sha256(x).hexdigest()` on line 337 (Python stdlib),
  abstracted as a function on strings. -/
  sha256hex : String → String

/-- The resolution of the link type with explicit-mode overrides
(lines 246-252): `_self_link_mode` wins over `_two_dataset_link_only`,
which wins over the configured link type. -/
def resolvedLinkType (cfg : LinkerConfig) : String :=
  let lt := cfg.settingsLinkType
  let lt := if cfg.twoDatasetLinkOnly then "two_dataset_link_only" else lt
  if cfg.selfLinkMode then "self_link" else lt

/-- The mutable state of the assembly loop. -/
structure AsmState where
  /-- The shared `where_condition` local variable, reassigned in place on
  lines 330-332. -/
  whereCondition : String
  /-- Statements passed to `linker._enqueue_sql(sql, name)`, in order. -/
  enqueued : List (String × String)
  /-- The `sqls` list (line 287). -/
  sqls : List String
deriving DecidableEq, Repr

/-- The static per-run data available inside the rule loop. -/
structure BranchConfig where
  applySalt : Bool
  sqlSelectExpr : String
  probability : String
  linkType : String
  inputTablenameL : String
  inputTablenameR : String
  uniqueIdColumnName : String
  cacheUid : String
  genExplodeSql : List String → String
  physicalName : String → String
  sha256hex : String → String

/-- The direct-path statement (lines 299-310), with the f-string's exact
layout. -/
def directSql (bc : BranchConfig) (matchKey : Nat) (salted_br : String)
    (whereCondition andNotClause : String) : String :=
  "\n                select\n                " ++ bc.sqlSelectExpr
    ++ "\n                , \x27" ++ toString matchKey
    ++ "\x27 as match_key\n                " ++ bc.probability
    ++ "\n                from " ++ bc.inputTablenameL
    ++ " as l\n                inner join " ++ bc.inputTablenameR
    ++ " as r\n                on\n                (" ++ salted_br
    ++ ")\n                " ++ whereCondition
    ++ "\n                " ++ andNotClause
    ++ "\n                "

/-- The enqueued id-pair statement of the array-expansion path
(lines 341-345). -/
def idPairsSql (bc : BranchConfig) (salted_br : String)
    (whereCondition andNotClause : String) : String :=
  "\n                    select distinct l." ++ bc.uniqueIdColumnName
    ++ " as " ++ bc.uniqueIdColumnName ++ "_l,r." ++ bc.uniqueIdColumnName
    ++ " as " ++ bc.uniqueIdColumnName
    ++ "_r\n                    from __splink__df_concat_with_tf_unnested as l inner join __splink__df_concat_with_tf_unnested as r on ("
    ++ salted_br ++ ")\n                    " ++ whereCondition ++ " "
    ++ andNotClause

/-- The `salt_id` suffix making array-path output names unique
(lines 334-339): a truncated sha256 of the salted predicate concatenated
with the cache uid when salting applies, and the empty string otherwise. -/
def saltIdSuffix (sha256hex : String → String) (applySalt : Bool)
    (salted_br cacheUid : String) : String :=
  if applySalt then
    "salt_id_" ++ (sha256hex (salted_br ++ cacheUid)).take 9
  else ""

/-- The templated output name of the materialized id-pair table
(line 346). -/
def idsToCompareTableName (sha256hex : String → String) (applySalt : Bool)
    (matchKey : Nat) (salted_br cacheUid : String) : String :=
  "ids_to_compare_blocking_rule_" ++ toString matchKey
    ++ saltIdSuffix sha256hex applySalt salted_br cacheUid

/-- The final per-branch statement of the array-expansion path
(lines 350-356), re-joining the cached id pairs to the original
relations. -/
def arrayFinalSql (bc : BranchConfig) (matchKey : Nat)
    (physName : String) : String :=
  "\n                    select " ++ bc.sqlSelectExpr ++ ", \x27"
    ++ toString matchKey ++ "\x27 as match_key\n                    "
    ++ bc.probability
    ++ "\n                    from " ++ physName
    ++ " as pairs\n                    left join " ++ bc.inputTablenameL
    ++ " as l on pairs." ++ bc.uniqueIdColumnName ++ "_l=l."
    ++ bc.uniqueIdColumnName
    ++ "\n                    left join " ++ bc.inputTablenameR
    ++ " as r on pairs." ++ bc.uniqueIdColumnName ++ "_r=r."
    ++ bc.uniqueIdColumnName ++ "\n                "

/-- The restriction appended in place to the shared `where_condition`
variable on lines 330-332. -/
def sourceDatasetRestriction : String :=
  " and l.source_dataset < r.source_dataset"

/-- The inner loop over a rule's salted variants (lines 297-357), threading
the assembly state and the rule's growing `ids_to_compare` list.  A branch
of a rule without arrays emits one direct-path statement; a branch of an
array rule enqueues the explode statement and the id-pair statement —
extending the shared where condition first when the resolved link type is
`two_dataset_link_only` — materializes the id pairs, records their
physical name, and emits the re-join statement. -/
def runBranches (bc : BranchConfig) (matchKey : Nat) (arrays : List String)
    (andNotClause : String) :
    AsmState → List String → List String → AsmState × List String
  | st, ids, [] => (st, ids)
  | st, ids, salted_br :: rest =>
    if arrays.isEmpty then
      let sql := directSql bc matchKey salted_br st.whereCondition andNotClause
      runBranches bc matchKey arrays andNotClause
        { st with sqls := st.sqls ++ [sql] } ids rest
    else
      let enq1 := st.enqueued
        ++ [(bc.genExplodeSql arrays, "__splink__df_concat_with_tf_unnested")]
      let w :=
        if bc.linkType = "two_dataset_link_only" then
          st.whereCondition ++ sourceDatasetRestriction
        else st.whereCondition
      let outName :=
        idsToCompareTableName bc.sha256hex bc.applySalt matchKey salted_br
          bc.cacheUid
      let enq2 := enq1 ++ [(idPairsSql bc salted_br w andNotClause, outName)]
      let phys := bc.physicalName outName
      let sql := arrayFinalSql bc matchKey phys
      runBranches bc matchKey arrays andNotClause
        { whereCondition := w, enqueued := enq2, sqls := st.sqls ++ [sql] }
        (ids ++ [phys]) rest

/-- Processes one rule of the outer loop (lines 288-357).  The preceding
rules — assigned, per the spec's composer contract, to the rules ordered
before this one, as mutated so far in this run — determine the match key
and the exclusion clause, both computed as the source does from
`br.preceding_rules` (modelled from the spec: the assignment itself lives
in the settings object, outside src/). -/
def processRule (bc : BranchConfig) (st : AsmState)
    (processed : List BlockingRule) (br : BlockingRule) :
    AsmState × BlockingRule :=
  let saltedList :=
    if bc.applySalt then salted_blocking_rules br else [br.blocking_rule]
  let mk := match_key processed
  let andNotClause := and_not_preceding_rules_sql bc.uniqueIdColumnName processed
  let (st', ids') :=
    runBranches bc mk br.arrays_to_explode andNotClause st br.ids_to_compare
      saltedList
  (st', { br with ids_to_compare := ids' })

/-- The outer loop over the blocking rules, accumulating the processed
rules (whose `ids_to_compare` lists have been extended) as the preceding
rules of the ones still to come. -/
def runRules (bc : BranchConfig) :
    AsmState → List BlockingRule → List BlockingRule →
    AsmState × List BlockingRule
  | st, processed, [] => (st, processed)
  | st, processed, br :: rest =>
    let (st', br') := processRule bc st processed br
    runRules bc st' (processed ++ [br']) rest

/-- Insertion of a string into a sorted list, for the `sorted(keys)` call
on line 368. -/
def insertStr (s : String) : List String → List String
  | [] => [s]
  | t :: rest => if s ≤ t then s :: t :: rest else t :: insertStr s rest

/-- Lexicographic string sort (`sorted` on line 368). -/
def sortStrings : List String → List String
  | [] => []
  | s :: rest => insertStr s (sortStrings rest)

/-- The post-pass for `two_dataset_link_only` (lines 359-387): partition
the concatenated dataset into canonical left/right halves keyed by the
lexicographically sorted input-table keys. -/
def postPassEnqueues (cfg : LinkerConfig) : List (String × String) :=
  let keys := sortStrings (cfg.inputTablesDict.map Prod.fst)
  let df_l := ((cfg.inputTablesDict.lookup (keys.getD 0 ""))).getD ""
  let df_r := ((cfg.inputTablesDict.lookup (keys.getD 1 ""))).getD ""
  let sample_switch := if cfg.trainURandomSampleMode then "_sample" else ""
  [("\n        select * from __splink__df_concat_with_tf" ++ sample_switch
      ++ "\n        where " ++ cfg.sourceDatasetColumnName ++ " = \x27"
      ++ df_l ++ "\x27\n        ",
    "__splink__df_concat_with_tf" ++ sample_switch ++ "_left"),
   ("\n        select * from __splink__df_concat_with_tf" ++ sample_switch
      ++ "\n        where " ++ cfg.sourceDatasetColumnName ++ " = \x27"
      ++ df_r ++ "\x27\n        ",
    "__splink__df_concat_with_tf" ++ sample_switch ++ "_right")]

/-- Everything `block_using_rules_sql` produces: the returned SQL string,
the per-branch statements it joins, the side-channel of enqueued
statements, the final value of the shared where condition, and the rules
with their mutated caches. -/
structure BlockResult where
  sql : String
  sqls : List String
  enqueued : List (String × String)
  finalWhere : String
  rulesOut : List BlockingRule
deriving DecidableEq, Repr

/-- Embeds `block_using_rules_sql` (lines 226-390).  `none` corresponds to
the `UnboundLocalError` the Python function raises on an unhandled link
type. -/
def block_using_rules_sql (cfg : LinkerConfig) : Option BlockResult :=
  let apply_salt := cfg.linkerIsSpark
  let sql_select_expr := String.intercalate ", " cfg.columnsToSelect
  let link_type := resolvedLinkType cfg
  match sql_gen_where_condition link_type cfg.uniqueIdInputColumns with
  | none => none
  | some where_condition =>
    let blocking_rules :=
      match cfg.blockingRuleForTraining with
      | some r => [r]
      | none => cfg.blockingRulesToGeneratePredictions
    let blocking_rules :=
      if blocking_rules.isEmpty then [{ blocking_rule := "1=1" }]
      else blocking_rules
    let probability :=
      if cfg.deterministicLinkMode then ", 1.00 as match_probability" else ""
    let bc : BranchConfig :=
      { applySalt := apply_salt
        sqlSelectExpr := sql_select_expr
        probability := probability
        linkType := link_type
        inputTablenameL := cfg.inputTablenameL
        inputTablenameR := cfg.inputTablenameR
        uniqueIdColumnName := cfg.uniqueIdColumnName
        cacheUid := cfg.cacheUid
        genExplodeSql := cfg.genExplodeSql
        physicalName := cfg.physicalName
        sha256hex := cfg.sha256hex }
    let (st, processed) :=
      runRules bc { whereCondition := where_condition, enqueued := [], sqls := [] }
        [] blocking_rules
    let enq :=
      if cfg.twoDatasetLinkOnly && !cfg.findNewMatchesMode
          && !cfg.compareTwoRecordsMode then
        st.enqueued ++ postPassEnqueues cfg
      else st.enqueued
    some { sql := String.intercalate "union all" st.sqls
           sqls := st.sqls
           enqueued := enq
           finalWhere := st.whereCondition
           rulesOut := processed }

/-- Two-valued semantics of the three where-clause shapes
`_sql_gen_where_condition` can generate, by the same link-type branching:
`1=1` is true everywhere; `id_expr_l < id_expr_r` compares the composite
identifiers; `link_only` additionally compares the source-dataset
columns with `!=`. -/
def whereConditionHolds (link_type : String) (idL idR : ℤ)
    (srcL srcR : String) : Bool :=
  if link_type = "two_dataset_link_only" ∨ link_type = "self_link" then
    true
  else if link_type = "link_and_dedupe" ∨ link_type = "dedupe_only" then
    decide (idL < idR)
  else
    decide (idL < idR) && decide (srcL ≠ srcR)

/-! ## Claims -/

/-- **C2.** The base where-condition depends only on the link mode:
`two_dataset_link_only` and `self_link` get the tautology `" where 1=1 "`
(no identifier-ordering restriction); `dedupe_only` and `link_and_dedupe`
require composite-identifier(l) < composite-identifier(r); `link_only`
requires the same ordering and additionally that the source-dataset
columns (the first unique-id input column) of the two sides differ. -/
theorem C2_where_condition_by_link_mode :
    (∀ cols : List String,
      sql_gen_where_condition "two_dataset_link_only" cols = some " where 1=1 " ∧
      sql_gen_where_condition "self_link" cols = some " where 1=1 " ∧
      sql_gen_where_condition "dedupe_only" cols =
        some ("where " ++ compositeUniqueIdFromNodesSql cols "l" ++ " < "
          ++ compositeUniqueIdFromNodesSql cols "r") ∧
      sql_gen_where_condition "link_and_dedupe" cols =
        some ("where " ++ compositeUniqueIdFromNodesSql cols "l" ++ " < "
          ++ compositeUniqueIdFromNodesSql cols "r")) ∧
    (∀ (c : String) (cs : List String),
      sql_gen_where_condition "link_only" (c :: cs) =
        some ("where " ++ compositeUniqueIdFromNodesSql (c :: cs) "l" ++ " < "
          ++ compositeUniqueIdFromNodesSql (c :: cs) "r" ++ " "
          ++ "and l." ++ c ++ " != r." ++ c)) ∧
    (∀ (idL idR : ℤ) (srcL srcR : String),
      whereConditionHolds "two_dataset_link_only" idL idR srcL srcR = true ∧
      whereConditionHolds "self_link" idL idR srcL srcR = true ∧
      (whereConditionHolds "dedupe_only" idL idR srcL srcR = true ↔ idL < idR) ∧
      (whereConditionHolds "link_and_dedupe" idL idR srcL srcR = true ↔ idL < idR) ∧
      (whereConditionHolds "link_only" idL idR srcL srcR = true ↔
        idL < idR ∧ srcL ≠ srcR)) := by
  refine ⟨fun cols => ?_, fun c cs => ?_, fun idL idR srcL srcR => ?_⟩
  · refine ⟨rfl, rfl, rfl, rfl⟩
  · rfl
  · refine ⟨rfl, rfl, ?_, ?_, ?_⟩ <;> simp [whereConditionHolds]

/-- **C3.** A rule's exclusion clause for following rules depends only on
whether `ids_to_compare` is non-empty: when non-empty it is an `EXISTS`
check against the `union all` of the cached id-pair tables matched on the
left and right unique-id columns; when empty it is the raw predicate
wrapped in `coalesce((...),false)`, whose three-valued semantics maps an
unknown (null-valued) evaluation to `false`, so such a pair is never
excluded. -/
theorem C3_exclusion_clause_shape :
    (∀ (uid : String) (r : BlockingRule), r.ids_to_compare = [] →
      exclude_from_following_rules_sql uid r =
        "coalesce((" ++ r.blocking_rule ++ "),false)") ∧
    (∀ (uid : String) (r : BlockingRule), r.ids_to_compare ≠ [] →
      exclude_from_following_rules_sql uid r =
        "EXISTS (\n                select 1 from ("
          ++ String.intercalate " union all "
              (r.ids_to_compare.map (fun s => "select * from " ++ s))
          ++ ") as ids_to_compare\n                where (\n                    l."
          ++ uid ++ " = ids_to_compare." ++ uid
          ++ "_l and \n                    r."
          ++ uid ++ " = ids_to_compare." ++ uid
          ++ "_r \n                )\n            )\n            ") ∧
    coalesceFalse none = false ∧
    (∀ b, coalesceFalse (some b) = b) := by
  refine ⟨fun uid r h => ?_, fun uid r h => ?_, rfl, fun b => rfl⟩
  · simp [exclude_from_following_rules_sql, h]
  · simp [exclude_from_following_rules_sql, ids_to_compare_sql,
      List.isEmpty_iff, h]

/-- **C4.** Structural decomposition of a blocking-rule predicate is exact
on the spec's two examples: `l.name = r.name and l.dob = r.dob` yields the
equality key pairs `[("name","name"), ("dob","dob")]` (table qualifiers
stripped) with an empty residual filter; `l.name = r.name and
l.age > r.age - 2` yields `[("name","name")]` and a residual filter that
renders to `l.age > r.age - 2`, i.e. `age > age - 2` up to the stripped
table qualifiers. -/
theorem C4_decomposition_examples :
    equi_join_conditions examplePredicate1 = [("name", "name"), ("dob", "dob")] ∧
    filter_conditions examplePredicate1 = "" ∧
    equi_join_conditions examplePredicate2 = [("name", "name")] ∧
    filter_conditions examplePredicate2 = "l.age > r.age - 2" ∧
    stripped_filter_conditions examplePredicate2 = "age > age - 2" := by
  refine ⟨rfl, rfl, rfl, rfl, rfl⟩

/-- **C5.** `salted_blocking_rules` yields exactly the original predicate
when `salting_partitions = 1`, and otherwise exactly `salting_partitions`
strings, the `n`-th (0-based) being the predicate conjoined with the
bucket-membership test `ceiling(l.__splink_salt * N) = n+1`; the tested
bucket value `n+1` lies in `[1, N]`, and the appended clause is
`saltClause N n`, a function of `N` and `n` alone, hence independent of
the rule's identity. -/
theorem C5_salted_variants :
    (∀ r : BlockingRule, r.salting_partitions = 1 →
      salted_blocking_rules r = [r.blocking_rule]) ∧
    (∀ r : BlockingRule, r.salting_partitions ≠ 1 →
      (salted_blocking_rules r).length = r.salting_partitions ∧
      ∀ n, n < r.salting_partitions →
        (salted_blocking_rules r).getD n "" =
          r.blocking_rule ++ saltClause r.salting_partitions n ∧
        1 ≤ n + 1 ∧ n + 1 ≤ r.salting_partitions) := by
  constructor
  · intro r h
    simp [salted_blocking_rules, h]
  · intro r h
    constructor
    · simp [salted_blocking_rules, h]
    · intro n hn
      refine ⟨?_, Nat.le_add_left 1 n, hn⟩
      have hlen : n < (salted_blocking_rules r).length := by
        simp [salted_blocking_rules, h, hn]
      rw [List.getD_eq_getElem _ _ hlen]
      simp [salted_blocking_rules, h]

/-- Witness for C3 at a concrete rule with a populated cache. -/
theorem C3_witness :
    exclude_from_following_rules_sql "unique_id"
        { blocking_rule := "l.city = r.city", ids_to_compare := ["t1", "t2"] } =
      "EXISTS (\n                select 1 from ("
        ++ String.intercalate " union all "
            (["t1", "t2"].map (fun s => "select * from " ++ s))
        ++ ") as ids_to_compare\n                where (\n                    l."
        ++ "unique_id" ++ " = ids_to_compare." ++ "unique_id"
        ++ "_l and \n                    r."
        ++ "unique_id" ++ " = ids_to_compare." ++ "unique_id"
        ++ "_r \n                )\n            )\n            " :=
  C3_exclusion_clause_shape.2.1 "unique_id"
    { blocking_rule := "l.city = r.city", ids_to_compare := ["t1", "t2"] }
    (by decide)

/-- Witness for C5 at a concrete rule with three salting partitions. -/
theorem C5_witness :
    (salted_blocking_rules
        { blocking_rule := "l.a = r.a", salting_partitions := 3 }).getD 1 "" =
      "l.a = r.a" ++ saltClause 3 1 :=
  ((C5_salted_variants.2
      { blocking_rule := "l.a = r.a", salting_partitions := 3 }
      (by decide)).2 1 (by decide)).1

/-- **C8, counterexample.** A structured config omitting the predicate
field does fail immediately, but with the builtin `ValueError`
("No blocking rule submitted...") — not with a `ConfigError` as the claim
states. -/
theorem C8_counterexample :
    raisesConfigError (blocking_rule_to_obj (.dict {})) = false ∧
    blocking_rule_to_obj (.dict {}) =
      .error (.valueError "No blocking rule submitted...") :=
  ⟨rfl, rfl⟩

/-- **C8, amended.** Constructing a `BlockingRule` from a structured
config that omits the predicate field fails immediately with `ValueError`;
a structured config that includes the predicate field never raises, and
its absent optional fields default to dialect `None` (both as the stored
constructor argument and through the `sql_dialect` property),
`salting_partitions` 1, and an empty `arrays_to_explode` list. -/
theorem C8_structured_config_amended :
    (∀ d : BRDict, d.blocking_rule = none →
      blocking_rule_to_obj (.dict d) =
        .error (.valueError "No blocking rule submitted...")) ∧
    (∀ (d : BRDict) (p : String), d.blocking_rule = some p →
      blocking_rule_to_obj (.dict d) =
        .ok { blocking_rule := p
              salting_partitions := d.salting_partitions.getD 1
              sqlglot_dialect := d.sql_dialect
              arrays_to_explode := d.arrays_to_explode.getD []
              ids_to_compare := [] }) ∧
    (∀ p : String,
      blocking_rule_to_obj (.dict { blocking_rule := some p }) =
        .ok { blocking_rule := p } ∧
      BlockingRule.sql_dialect { blocking_rule := p } = none ∧
      BlockingRule.salting_partitions { blocking_rule := p } = 1 ∧
      BlockingRule.arrays_to_explode { blocking_rule := p } = []) := by
  refine ⟨fun d h => ?_, fun d p h => ?_, fun p => ⟨?_, rfl, rfl, rfl⟩⟩
  · simp [blocking_rule_to_obj, h]
  · simp [blocking_rule_to_obj, h]
  · rfl

/-- Witness for the amended C8 at a concrete dict. -/
theorem C8_witness :
    blocking_rule_to_obj (.dict { blocking_rule := some "l.x = r.x" }) =
      .ok { blocking_rule := "l.x = r.x"
            salting_partitions := (Option.getD none 1 : Nat)
            sqlglot_dialect := none
            arrays_to_explode := Option.getD none []
            ids_to_compare := [] } :=
  C8_structured_config_amended.2.1 { blocking_rule := some "l.x = r.x" }
    "l.x = r.x" rfl

/-- **C9, counterexample.** The claim says every materialized id-pair
table name is content-derived from the salted predicate and the cache
identifier.  But when salting is not applied (`apply_salt` false — every
non-Spark backend), the `salt_id` suffix on line 339 is the empty string,
so two rules with distinct predicates and even distinct cache identifiers
get the same table name `ids_to_compare_blocking_rule_0`. -/
theorem C9_counterexample :
    idsToCompareTableName (fun s => s) false 0
        "l.first_name = r.first_name" "uid_a" =
      idsToCompareTableName (fun s => s) false 0
        "l.surname = r.surname" "uid_b" :=
  rfl

/-- **C9, amended.** Only when salting is applied is the table name
content-derived: it is then `ids_to_compare_blocking_rule_{match_key}`
followed by `salt_id_` and the 9-character truncation of the sha256 hex
digest of the salted predicate concatenated with the cache identifier, so
two names with the same match key differ whenever those truncated digests
differ, and re-running the same rule with an unchanged cache identifier
reproduces the same name; when salting is not applied the name is the
content-independent `ids_to_compare_blocking_rule_{match_key}`. -/
theorem C9_table_naming_amended :
    (∀ (h : String → String) (mk : Nat) (br uid : String),
      idsToCompareTableName h true mk br uid =
        "ids_to_compare_blocking_rule_" ++ toString mk
          ++ "salt_id_" ++ (h (br ++ uid)).take 9) ∧
    (∀ (h : String → String) (mk : Nat) (br uid : String),
      idsToCompareTableName h false mk br uid =
        "ids_to_compare_blocking_rule_" ++ toString mk) ∧
    (∀ (h : String → String) (mk : Nat) (br uid br' uid' : String),
      (h (br ++ uid)).take 9 ≠ (h (br' ++ uid')).take 9 →
      idsToCompareTableName h true mk br uid ≠
        idsToCompareTableName h true mk br' uid') ∧
    (∀ (h : String → String) (mk : Nat) (br uid : String),
      idsToCompareTableName h true mk br uid =
        idsToCompareTableName h true mk br uid) := by
  have hcancel : ∀ a x y : String, a ++ x = a ++ y → x = y := by
    intro a x y hxy
    apply String.ext
    have hdata := congrArg String.data hxy
    simp only [String.data_append] at hdata
    exact List.append_cancel_left hdata
  have hshape : ∀ (h : String → String) (mk : Nat) (br uid : String),
      idsToCompareTableName h true mk br uid =
        ("ids_to_compare_blocking_rule_" ++ toString mk ++ "salt_id_")
          ++ (h (br ++ uid)).take 9 := by
    intro h mk br uid
    simp [idsToCompareTableName, saltIdSuffix, String.append_assoc]
  refine ⟨fun h mk br uid => ?_, fun h mk br uid => ?_,
    fun h mk br uid br' uid' hne heq => ?_, fun h mk br uid => rfl⟩
  · simp [idsToCompareTableName, saltIdSuffix, String.append_assoc]
  · simp [idsToCompareTableName, saltIdSuffix]
  · rw [hshape, hshape] at heq
    exact hne (hcancel _ _ _ heq)

/-- Witness for the amended C9: distinct truncated digests give distinct
names (the stand-in digest function is injective enough on the two
inputs). -/
theorem C9_witness :
    idsToCompareTableName (fun s => s) true 0 "l.a = r.a" "uid_1" ≠
      idsToCompareTableName (fun s => s) true 0 "l.b = r.b" "uid_1" :=
  C9_table_naming_amended.2.2.1 (fun s => s) 0 "l.a = r.a" "uid_1"
    "l.b = r.b" "uid_1" (by decide)

/-- **C6.** Salting never changes which pairs match: for every predicate
value `P`, every `salting_partitions ≥ 1` and every per-record salt value
`s` in the generator's range `(0, 1]` (modelled from the spec: the
`__splink_salt` column, populated outside src/, is a deterministic
per-record bucket source whose bucket `⌈s·N⌉` lies in `[1, N]`), the union
of the pair sets selected by the salted variants coincides with the pair
set selected by the unsalted predicate. -/
theorem C6_salting_equivalence (P : Bool) (N : Nat) (s : ℚ)
    (hN : 1 ≤ N) (hs0 : 0 < s) (hs1 : s ≤ 1) :
    saltedUnionMatches P N s ↔ P = true := by
  unfold saltedUnionMatches
  by_cases h1 : N = 1
  · simp [h1]
  · simp only [if_neg h1]
    constructor
    · rintro ⟨n, _, hP, _⟩
      exact hP
    · intro hP
      have hNpos : (0 : ℚ) < (N : ℚ) := by
        exact_mod_cast Nat.lt_of_lt_of_le Nat.zero_lt_one hN
      have hc1 : 1 ≤ saltBucket N s := by
        have : 0 < saltBucket N s := Int.ceil_pos.mpr (mul_pos hs0 hNpos)
        omega
      have hc2 : saltBucket N s ≤ (N : ℤ) := by
        apply Int.ceil_le.mpr
        push_cast
        exact mul_le_of_le_one_left (le_of_lt hNpos) hs1
      refine ⟨(saltBucket N s - 1).toNat, by omega, hP, by omega⟩

/-- Witness for C6: two partitions, salt value 1/2, a matching pair. -/
theorem C6_witness : saltedUnionMatches true 2 (1 / 2) :=
  (C6_salting_equivalence true 2 (1 / 2) (by norm_num) (by norm_num)
    (by norm_num)).mpr rfl

/-- The first matching rule accepts the pair, and no earlier rule does. -/
theorem leastMatch_spec {α : Type} (preds : List (α → Bool)) (p : α)
    (h : preds.any (fun f => f p) = true) :
    (preds.getD (leastMatch preds p) (fun _ => false)) p = true ∧
    ∀ j, j < leastMatch preds p →
      (preds.getD j (fun _ => false)) p = false := by
  induction preds with
  | nil => simp at h
  | cons f rest ih =>
    by_cases hf : f p = true
    · constructor
      · simp [leastMatch, List.findIdx_cons, hf]
      · intro j hj
        simp [leastMatch, List.findIdx_cons, hf] at hj
    · have hf' : f p = false := by
        cases hfp : f p
        · rfl
        · exact absurd hfp hf
      have h' : rest.any (fun f => f p) = true := by
        simpa [List.any_cons, hf'] using h
      have ihs := ih h'
      have hidx : leastMatch (f :: rest) p = leastMatch rest p + 1 := by
        simp [leastMatch, List.findIdx_cons, hf']
      constructor
      · rw [hidx]
        simpa using ihs.1
      · intro j hj
        rw [hidx] at hj
        cases j with
        | zero => simpa using hf'
        | succ j' =>
          have : j' < leastMatch rest p := Nat.lt_of_succ_lt_succ hj
          simpa using ihs.2 j' this

/-- The first matching index is a valid index. -/
theorem leastMatch_lt_length {α : Type} (preds : List (α → Bool)) (p : α)
    (h : preds.any (fun f => f p) = true) :
    leastMatch preds p < preds.length := by
  induction preds with
  | nil => simp at h
  | cons f rest ih =>
    by_cases hf : f p = true
    · simp [leastMatch, List.findIdx_cons, hf]
    · have hf' : f p = false := by
        cases hfp : f p
        · rfl
        · exact absurd hfp hf
      have h' : rest.any (fun f => f p) = true := by
        simpa [List.any_cons, hf'] using h
      have := ih h'
      simp only [leastMatch, List.findIdx_cons, hf', cond_false,
        List.length_cons]
      exact Nat.succ_lt_succ this

/-- A true predicate at a valid index below `j` makes the `take j` window
satisfiable. -/
theorem take_any_of_lt {α : Type} (preds : List (α → Bool)) (p : α)
    (k j : Nat) (hk : k < preds.length) (hkj : k < j)
    (htrue : (preds.getD k (fun _ => false)) p = true) :
    (preds.take j).any (fun f => f p) = true := by
  rw [List.any_eq_true]
  have hklen : k < (preds.take j).length := by
    simp [List.length_take]
    omega
  refine ⟨(preds.take j)[k], List.getElem_mem hklen, ?_⟩
  have heq : (preds.take j)[k] = preds[k] := List.getElem_take preds
  rw [heq]
  rw [List.getD_eq_getElem _ _ hk] at htrue
  exact htrue

/-- **C1.** The duplicate-avoidance clause and its consequence.  String
level: for an ordered composition, rule 0 (empty `preceding_rules`) gets
the empty string — not a tautology — and rule `i` gets
`AND NOT (D)` where `D` is the `" OR "`-disjunction of the exclusion
clauses of exactly the rules `0..i-1` in order.  Semantic level (the
two-valued reading `branchEmits` of the generated statements, with
`preds.take i` the preceding predicates of rule `i`): every pair
satisfying at least one rule is emitted by exactly one branch, namely the
one of the smallest-index matching rule — whose match key labels the pair,
the match key of rule `i` being `i` itself under the composer contract
(`match_key` = number of preceding rules). -/
theorem C1_exclusion_composition_exactly_once (α : Type) :
    (∀ uid : String, and_not_preceding_rules_sql uid [] = "") ∧
    (∀ (uid : String) (pre : List BlockingRule), pre ≠ [] →
      and_not_preceding_rules_sql uid pre =
        "AND NOT ("
          ++ String.intercalate " OR "
              (pre.map (exclude_from_following_rules_sql uid))
          ++ ")") ∧
    (∀ pre : List BlockingRule, match_key pre = pre.length) ∧
    (∀ (preds : List (α → Bool)) (p : α),
      preds.any (fun f => f p) = true →
      branchEmits preds (leastMatch preds p) p = true ∧
      (∀ j, branchEmits preds j p = true → j = leastMatch preds p) ∧
      (∀ j, j < leastMatch preds p →
        (preds.getD j (fun _ => false)) p = false)) := by
  refine ⟨fun uid => rfl, fun uid pre hpre => ?_, fun pre => rfl,
    fun preds p h => ?_⟩
  · simp [and_not_preceding_rules_sql, List.isEmpty_iff, hpre]
  · have hspec := leastMatch_spec preds p h
    have hlt := leastMatch_lt_length preds p h
    refine ⟨?_, ?_, hspec.2⟩
    · unfold branchEmits
      rw [hspec.1]
      simp only [Bool.true_and, Bool.not_eq_true', Bool.not_eq_false]
      rw [List.any_eq_false]
      intro f hf
      rcases List.mem_iff_getElem.mp hf with ⟨j, hj, rfl⟩
      have hjlen : j < preds.length := by
        have := List.length_take_le (leastMatch preds p) preds
        omega
      have hjlm : j < leastMatch preds p := by
        have := List.length_take (leastMatch preds p) preds
        omega
      have hfalse := hspec.2 j hjlm
      rw [List.getD_eq_getElem _ _ hjlen] at hfalse
      have hgt : (preds.take (leastMatch preds p))[j] = preds[j] :=
        List.getElem_take preds
      rw [hgt, hfalse]
      simp
    · intro j hj
      unfold branchEmits at hj
      rw [Bool.and_eq_true] at hj
      obtain ⟨hj1, hj2⟩ := hj
      rcases Nat.lt_trichotomy j (leastMatch preds p) with hlt' | heq | hgt
      · exact absurd hj1 (by simp [hspec.2 j hlt'])
      · exact heq
      · exfalso
        have := take_any_of_lt preds p (leastMatch preds p) j hlt hgt hspec.1
        rw [this] at hj2
        simp at hj2

/-- Witness for C1 at a concrete two-rule composition and a pair matched
by both rules: it is emitted by branch 0 only. -/
theorem C1_witness :
    branchEmits [fun n : Nat => decide (n = 2), fun n : Nat => decide (0 < n)]
        (leastMatch
          [fun n : Nat => decide (n = 2), fun n : Nat => decide (0 < n)] 2)
        2 = true ∧
    and_not_preceding_rules_sql "unique_id" [] = "" :=
  ⟨((C1_exclusion_composition_exactly_once Nat).2.2.2
      [fun n : Nat => decide (n = 2), fun n : Nat => decide (0 < n)] 2
      (by decide)).1,
    (C1_exclusion_composition_exactly_once Nat).1 "unique_id"⟩

/-- **C7.** If the caller supplies no blocking rules (neither a training
rule nor prediction rules), the assembler substitutes the single
always-true rule `1=1` (with all constructor defaults), so the run
produces exactly the same result — returned query, per-branch statements,
enqueued side statements, final where condition and rule caches — as a run
whose caller passed that one explicit rule, under the same link-mode base
filter. -/
theorem C7_default_rule (cfg : LinkerConfig)
    (h1 : cfg.blockingRuleForTraining = none)
    (h2 : cfg.blockingRulesToGeneratePredictions = []) :
    block_using_rules_sql cfg =
      block_using_rules_sql
        { cfg with blockingRulesToGeneratePredictions :=
            [{ blocking_rule := "1=1" }] } := by
  unfold block_using_rules_sql
  simp only [h1, h2, resolvedLinkType, List.isEmpty_nil, List.isEmpty_cons,
    if_true, Bool.false_eq_true, if_false]
  rfl

/-- A concrete run configuration shared by the assembler witnesses. -/
def sampleConfig : LinkerConfig where
  linkerIsSpark := false
  columnsToSelect := ["l.unique_id as unique_id_l", "r.unique_id as unique_id_r"]
  settingsLinkType := "dedupe_only"
  twoDatasetLinkOnly := false
  selfLinkMode := false
  uniqueIdInputColumns := ["unique_id"]
  blockingRuleForTraining := none
  blockingRulesToGeneratePredictions := []
  deterministicLinkMode := false
  inputTablenameL := "__splink__df_concat_with_tf"
  inputTablenameR := "__splink__df_concat_with_tf"
  uniqueIdColumnName := "unique_id"
  cacheUid := "abc123"
  findNewMatchesMode := false
  compareTwoRecordsMode := false
  sourceDatasetColumnName := "source_dataset"
  inputTablesDict := [("t_a", "df_a"), ("t_b", "df_b")]
  trainURandomSampleMode := false
  genExplodeSql := fun _ => "explode_sql"
  physicalName := fun s => s
  sha256hex := fun s => s

/-- Witness for C7 at the concrete sample configuration. -/
theorem C7_witness :
    block_using_rules_sql sampleConfig =
      block_using_rules_sql
        { sampleConfig with blockingRulesToGeneratePredictions :=
            [{ blocking_rule := "1=1" }] } :=
  C7_default_rule sampleConfig rfl rfl

/-! ### The shared-where-condition accumulation (claim C10) -/

/-- `k` copies of the appended source-dataset restriction. -/
def suffixRep : Nat → String
  | 0 => ""
  | k + 1 => sourceDatasetRestriction ++ suffixRep k

theorem suffixRep_add (a b : Nat) :
    suffixRep (a + b) = suffixRep a ++ suffixRep b := by
  induction a with
  | zero => simp [suffixRep, String.empty_append]
  | succ a ih =>
    rw [Nat.succ_add]
    simp [suffixRep, ih, String.append_assoc]

/-- The number of salted branches the assembly loop runs for one rule. -/
def ruleBranchCount (applySalt : Bool) (br : BlockingRule) : Nat :=
  if applySalt then (salted_blocking_rules br).length else 1

/-- The number of array-expansion branches of one rule: every salted
branch when the rule explodes arrays, none otherwise. -/
def ruleArrayBranchCount (applySalt : Bool) (br : BlockingRule) : Nat :=
  if br.arrays_to_explode.isEmpty then 0 else ruleBranchCount applySalt br

/-- The total number of array-expansion branches of a rule list. -/
def totalArrayBranchCount (applySalt : Bool) (rules : List BlockingRule) : Nat :=
  (rules.map (ruleArrayBranchCount applySalt)).sum

/-- Branches of an array-exploding rule under `two_dataset_link_only`
extend the shared where condition by one restriction copy each. -/
theorem runBranches_where_array (bc : BranchConfig)
    (hlt : bc.linkType = "two_dataset_link_only") (mk : Nat)
    (arrays : List String) (ha : arrays.isEmpty = false)
    (andNot : String) :
    ∀ (bs : List String) (st : AsmState) (ids : List String),
      (runBranches bc mk arrays andNot st ids bs).1.whereCondition =
        st.whereCondition ++ suffixRep bs.length := by
  intro bs
  induction bs with
  | nil =>
    intro st ids
    simp [runBranches, suffixRep, String.append_empty]
  | cons b rest ih =>
    intro st ids
    simp only [runBranches, ha, Bool.false_eq_true, if_false, hlt, if_pos]
    rw [ih]
    simp [suffixRep, String.append_assoc]

/-- Branches of a rule without arrays leave the shared where condition,
the enqueued statements and the cache untouched, and emit exactly the
direct-path statements built from the where condition current at entry. -/
theorem runBranches_direct (bc : BranchConfig) (mk : Nat)
    (arrays : List String) (ha : arrays.isEmpty = true) (andNot : String) :
    ∀ (bs : List String) (st : AsmState) (ids : List String),
      (runBranches bc mk arrays andNot st ids bs).1.whereCondition =
        st.whereCondition ∧
      (runBranches bc mk arrays andNot st ids bs).1.enqueued = st.enqueued ∧
      (runBranches bc mk arrays andNot st ids bs).2 = ids ∧
      (runBranches bc mk arrays andNot st ids bs).1.sqls =
        st.sqls ++ bs.map
          (fun sbr => directSql bc mk sbr st.whereCondition andNot) := by
  intro bs
  induction bs with
  | nil =>
    intro st ids
    simp [runBranches]
  | cons b rest ih =>
    intro st ids
    simp only [runBranches, ha, if_pos, List.map_cons]
    refine ⟨(ih _ _).1, (ih _ _).2.1, (ih _ _).2.2.1, ?_⟩
    rw [(ih _ _).2.2.2]
    simp [List.append_assoc]

/-- Processing one rule extends the shared where condition by exactly its
array-branch count (under `two_dataset_link_only`). -/
theorem processRule_where (bc : BranchConfig)
    (hlt : bc.linkType = "two_dataset_link_only") (st : AsmState)
    (processed : List BlockingRule) (br : BlockingRule) :
    (processRule bc st processed br).1.whereCondition =
      st.whereCondition ++ suffixRep (ruleArrayBranchCount bc.applySalt br) := by
  unfold processRule ruleArrayBranchCount ruleBranchCount
  cases ha : br.arrays_to_explode.isEmpty with
  | true =>
    simp only [if_pos]
    rw [(runBranches_direct bc _ _ ha _ _ _ _).1]
    simp [suffixRep, String.append_empty]
  | false =>
    simp only [Bool.false_eq_true, if_false]
    rw [runBranches_where_array bc hlt _ _ ha _ _ _ _]
    cases bc.applySalt <;> simp

/-- The outer loop extends the shared where condition by the total
array-branch count of the rules it processes. -/
theorem runRules_where (bc : BranchConfig)
    (hlt : bc.linkType = "two_dataset_link_only") :
    ∀ (rules : List BlockingRule) (st : AsmState)
      (processed : List BlockingRule),
      (runRules bc st processed rules).1.whereCondition =
        st.whereCondition
          ++ suffixRep (totalArrayBranchCount bc.applySalt rules) := by
  intro rules
  induction rules with
  | nil =>
    intro st processed
    simp [runRules, totalArrayBranchCount, suffixRep, String.append_empty]
  | cons br rest ih =>
    intro st processed
    simp only [runRules]
    rw [ih]
    rw [processRule_where bc hlt]
    rw [String.append_assoc, ← suffixRep_add]
    simp [totalArrayBranchCount]

/-- `runRules` distributes over list append: the run on `l1 ++ l2`
factors through the state and processed rules after `l1`. -/
theorem runRules_append (bc : BranchConfig) :
    ∀ (l1 l2 : List BlockingRule) (st : AsmState)
      (processed : List BlockingRule),
      runRules bc st processed (l1 ++ l2) =
        runRules bc (runRules bc st processed l1).1
          (runRules bc st processed l1).2 l2 := by
  intro l1
  induction l1 with
  | nil =>
    intro l2 st processed
    simp [runRules]
  | cons br rest ih =>
    intro l2 st processed
    simp only [List.cons_append, runRules]
    exact ih _ _ _

/-- `runRules` appends exactly the processed forms of its input rules to
the processed list, so the processed count at entry of rule `i` is `i`. -/
theorem runRules_processed_length (bc : BranchConfig) :
    ∀ (rules : List BlockingRule) (st : AsmState)
      (processed : List BlockingRule),
      (runRules bc st processed rules).2.length =
        processed.length + rules.length := by
  intro rules
  induction rules with
  | nil =>
    intro st processed
    simp [runRules]
  | cons br rest ih =>
    intro st processed
    simp only [runRules]
    rw [ih]
    simp only [List.length_append, List.length_cons, List.length_nil]
    omega

/-- **C10.** In `two_dataset_link_only` mode, each array-expansion branch
appends `" and l.source_dataset < r.source_dataset"` in place to the
shared where-condition variable — once per such branch — so: (1) running
the branches of an array-exploding rule extends the shared variable by one
restriction copy per branch; (2) direct-path branches never modify it and
emit statements that carry the variable's value current at entry; (3) the
variable's value after any rule prefix is the base condition followed by
one copy per array branch processed; (4) consequently, in a run on
`rules1 ++ br :: rules2` where `br` has no array fields, the run factors
through `br`'s processing, and `br`'s direct statements carry the base
where-condition followed by exactly `totalArrayBranchCount rules1` copies
of the restriction — zero copies (the bare base) when no array branch
preceded, at least one after the first array branch. -/
theorem C10_shared_where_condition_mutation (bc : BranchConfig)
    (hlt : bc.linkType = "two_dataset_link_only") :
    (∀ (mk : Nat) (arrays : List String), arrays ≠ [] →
      ∀ (andNot : String) (bs : List String) (st : AsmState)
        (ids : List String),
        (runBranches bc mk arrays andNot st ids bs).1.whereCondition =
          st.whereCondition ++ suffixRep bs.length) ∧
    (∀ (mk : Nat) (andNot : String) (bs : List String) (st : AsmState)
      (ids : List String),
      (runBranches bc mk [] andNot st ids bs).1.whereCondition =
        st.whereCondition ∧
      (runBranches bc mk [] andNot st ids bs).1.sqls =
        st.sqls ++ bs.map
          (fun sbr => directSql bc mk sbr st.whereCondition andNot)) ∧
    (∀ (rules : List BlockingRule) (st : AsmState)
      (processed : List BlockingRule),
      (runRules bc st processed rules).1.whereCondition =
        st.whereCondition
          ++ suffixRep (totalArrayBranchCount bc.applySalt rules)) ∧
    (∀ (rules1 rules2 : List BlockingRule) (br : BlockingRule),
      br.arrays_to_explode = [] →
      ∀ w0 : String,
        runRules bc { whereCondition := w0, enqueued := [], sqls := [] }
            [] (rules1 ++ br :: rules2) =
          runRules bc
            (processRule bc
              (runRules bc
                { whereCondition := w0, enqueued := [], sqls := [] }
                [] rules1).1
              (runRules bc
                { whereCondition := w0, enqueued := [], sqls := [] }
                [] rules1).2 br).1
            ((runRules bc
                { whereCondition := w0, enqueued := [], sqls := [] }
                [] rules1).2
              ++ [(processRule bc
                    (runRules bc
                      { whereCondition := w0, enqueued := [], sqls := [] }
                      [] rules1).1
                    (runRules bc
                      { whereCondition := w0, enqueued := [], sqls := [] }
                      [] rules1).2 br).2])
            rules2 ∧
        (processRule bc
            (runRules bc
              { whereCondition := w0, enqueued := [], sqls := [] }
              [] rules1).1
            (runRules bc
              { whereCondition := w0, enqueued := [], sqls := [] }
              [] rules1).2 br).1.sqls =
          (runRules bc
            { whereCondition := w0, enqueued := [], sqls := [] }
            [] rules1).1.sqls
            ++ (if bc.applySalt then salted_blocking_rules br
                else [br.blocking_rule]).map
                (fun sbr =>
                  directSql bc rules1.length sbr
                    (w0 ++ suffixRep (totalArrayBranchCount bc.applySalt rules1))
                    (and_not_preceding_rules_sql bc.uniqueIdColumnName
                      (runRules bc
                        { whereCondition := w0, enqueued := [], sqls := [] }
                        [] rules1).2))) ∧
    suffixRep 0 = "" ∧
    (∀ k, suffixRep (k + 1) = sourceDatasetRestriction ++ suffixRep k) := by
  refine ⟨?_, ?_, runRules_where bc hlt, ?_, rfl, fun k => rfl⟩
  · intro mk arrays ha andNot bs st ids
    have ha' : arrays.isEmpty = false := by
      cases arrays
      · exact absurd rfl ha
      · rfl
    exact runBranches_where_array bc hlt mk arrays ha' andNot bs st ids
  · intro mk andNot bs st ids
    exact ⟨(runBranches_direct bc mk [] rfl andNot bs st ids).1,
      (runBranches_direct bc mk [] rfl andNot bs st ids).2.2.2⟩
  · intro rules1 rules2 br hbr w0
    constructor
    · rw [runRules_append]
      rfl
    · have ha : br.arrays_to_explode.isEmpty = true := by
        rw [hbr]
        rfl
      have hlen :
          (runRules bc { whereCondition := w0, enqueued := [], sqls := [] }
            [] rules1).2.length = rules1.length := by
        rw [runRules_processed_length]
        simp
      unfold processRule
      rw [(runBranches_direct bc _ _ ha _ _ _ _).2.2.2]
      rw [runRules_where bc hlt]
      rw [match_key, hlen]

/-- A concrete loop configuration shared by the C10 witness. -/
def sampleBranchConfig : BranchConfig where
  applySalt := false
  sqlSelectExpr := "l.unique_id as unique_id_l, r.unique_id as unique_id_r"
  probability := ""
  linkType := "two_dataset_link_only"
  inputTablenameL := "__splink__df_concat_with_tf_left"
  inputTablenameR := "__splink__df_concat_with_tf_right"
  uniqueIdColumnName := "unique_id"
  cacheUid := "abc123"
  genExplodeSql := fun _ => "explode_sql"
  physicalName := fun s => s
  sha256hex := fun s => s

/-- Witness for C10: one array-exploding rule followed by nothing leaves
the shared where condition extended by one restriction copy. -/
theorem C10_witness :
    (runRules sampleBranchConfig
        { whereCondition := " where 1=1 ", enqueued := [], sqls := [] } []
        [{ blocking_rule := "l.postcode = r.postcode",
           arrays_to_explode := ["postcode"] },
         { blocking_rule := "l.city = r.city" }]).1.whereCondition =
      " where 1=1 "
        ++ suffixRep (totalArrayBranchCount false
            [{ blocking_rule := "l.postcode = r.postcode",
               arrays_to_explode := ["postcode"] },
             { blocking_rule := "l.city = r.city" }]) :=
  (C10_shared_where_condition_mutation sampleBranchConfig rfl).2.2.1
    [{ blocking_rule := "l.postcode = r.postcode",
       arrays_to_explode := ["postcode"] },
     { blocking_rule := "l.city = r.city" }]
    { whereCondition := " where 1=1 ", enqueued := [], sqls := [] } []

end Splink
